import Mathlib

/-!
Verification of the pulmoscan batch job execution pipeline.

Shallow embedding of the core pipeline code:
  * `src/app/models.py`        — Job / Prediction data model, JobStatus enum
  * `src/app/services/cache.py`— RedisCache.get_prediction / set_prediction
  * `src/app/workers/tasks.py` — process_single_image, process_batch_images

Conventions of the embedding:
  * SQLAlchemy sessions become explicit database snapshots (`DbState`); a
    `db.commit()` appends the current snapshot to a commit trace, which is
    what external pollers observe.
  * `func.now()` timestamps are modelled as an abstract tick `t : Nat`
    wrapped in `Option` (`none` = SQL NULL).
  * Python floats used for confidences and cache-hit rates are modelled as
    rationals (the arithmetic involved is exact in the ranges used).
  * The environment (file readable or not, cache hit or miss, engine
    result) is supplied per image as an `ImageFate`, since the pipeline
    only branches on those observations.
-/

namespace Pulmoscan

/-- `JobStatus` from `src/app/models.py`: PENDING/PROCESSING/COMPLETED/FAILED. -/
inductive JobStatus where
  | pending
  | processing
  | completed
  | failed
deriving DecidableEq, Repr

/-- Terminal statuses (spec glossary: Completed or Failed). -/
def JobStatus.isTerminal : JobStatus → Bool
  | .completed => true
  | .failed => true
  | _ => false

/-- The Job row from `src/app/models.py` (fields the pipeline touches). -/
structure Job where
  status : JobStatus
  total_images : Nat
  processed_images : Nat
  failed_images : Nat
  cached_images : Nat
  cache_hit_rate : Rat
  started_at : Option Nat
  completed_at : Option Nat
deriving DecidableEq, Repr

/-- The Prediction row from `src/app/models.py` (fields the pipeline writes). -/
structure Prediction where
  job_id : String
  image_filename : String
  image_hash : String
  predicted_class : String
  confidence : Rat
  top_3_classes : List String
  processing_time_ms : Rat
  from_cache : Bool
deriving DecidableEq, Repr

/-- A classification payload: the dict `{class, confidence, top_3_classes}`
produced by the engine and stored in the cache. -/
structure PredData where
  predictedClass : String
  confidence : Rat
  top_3_classes : List String
deriving DecidableEq, Repr

/-- A committed database snapshot for one job: the job row plus the
Prediction rows belonging to it, in insertion order. -/
structure DbState where
  job : Job
  predictions : List Prediction
deriving DecidableEq, Repr

/-! ## Prediction cache (`src/app/services/cache.py`)

The redis client is modelled as an association list from keys to stored
entries; `json.dumps`/`json.loads` round-trip on the dicts the app stores,
so serialization is modelled as the identity on `CacheEntry`.  A
`redis.RedisError` raised by the underlying client is modelled by the
per-call flag `storeErr`; the wrappers catch it (the `try/except` in the
source) and return a miss / do nothing. -/

/-- What `set_prediction` stores: the prediction dict plus the expiry
passed to `self.client.set`. -/
structure CacheEntry where
  value : PredData
  expiry : Nat
deriving DecidableEq, Repr

/-- The cache service state: `settings.CACHE_ENABLED` plus the redis keyspace. -/
structure CacheState where
  enabled : Bool
  store : List (String × CacheEntry)
deriving DecidableEq, Repr

/-- `RedisCache.default_ttl = 604800` (7 days in seconds). -/
def default_ttl : Nat := 604800

/-- Key layout from the source: `f"prediction:{image_hash}"`. -/
def predictionKey (image_hash : String) : String :=
  "prediction:" ++ image_hash

/-- `redis.get`, which may raise `redis.RedisError` (modelled by `storeErr`). -/
def clientGet (s : CacheState) (storeErr : Bool) (key : String) :
    Except Unit (Option CacheEntry) :=
  if storeErr then .error () else .ok ((s.store.lookup key))

/-- `redis.set key value ex=ttl`, which may raise `redis.RedisError`. -/
def clientSet (s : CacheState) (storeErr : Bool) (key : String)
    (v : PredData) (ex : Nat) : Except Unit CacheState :=
  if storeErr then .error ()
  else .ok { s with store := (key, ⟨v, ex⟩) :: s.store.eraseP (fun kv => kv.1 == key) }

/-- `RedisCache.get_prediction` from `src/app/services/cache.py`:
returns the cached dict or `none`; disabled cache or a store error is a miss. -/
def get_prediction (s : CacheState) (storeErr : Bool) (image_hash : String) :
    Option PredData :=
  if !s.enabled then none
  else
    match clientGet s storeErr (predictionKey image_hash) with
    | .error _ => none
    | .ok (some e) => some e.value
    | .ok none => none

/-- `RedisCache.set_prediction` from `src/app/services/cache.py`: stores the
dict under the hash key; a disabled cache or a store error leaves the store
unchanged.  Python's `ex=ttl or self.default_ttl` makes `ttl = 0` (falsy)
fall back to the default as well. -/
def set_prediction (s : CacheState) (storeErr : Bool) (image_hash : String)
    (p : PredData) (ttl : Option Nat) : CacheState :=
  if !s.enabled then s
  else
    let ex := match ttl with
      | none => default_ttl
      | some n => if n = 0 then default_ttl else n
    match clientSet s storeErr (predictionKey image_hash) p ex with
    | .error _ => s
    | .ok s' => s'

/-- One cache write request (arguments of a `set_prediction` call together
with whether the underlying store errored on that call). -/
structure SetOp where
  storeErr : Bool
  image_hash : String
  value : PredData
  ttl : Option Nat
deriving DecidableEq, Repr

/-- A sequence of `set_prediction` calls, applied in order. -/
def setMany (s : CacheState) (ops : List SetOp) : CacheState :=
  ops.foldl (fun st op => set_prediction st op.storeErr op.image_hash op.value op.ttl) s

/-! ## Batch pipeline (`process_batch_images`, `src/app/workers/tasks.py`)

The per-image environment is an `ImageFate`: either the per-image `try`
block raises (unreadable file — modelled before the hash is computed, the
dominant failure path, so `image_hash` is still `None` and the sentinel
record stores `"error"`), or the cache hits with a stored payload, or the
cache misses and the engine will later return the given payload and
inference time for these bytes. -/

/-- Outcome of the per-image guard for one image of a batch. -/
inductive ImageFate where
  | failure
  | hit (hash : String) (data : PredData)
  | miss (hash : String) (data : PredData) (inference_time : Rat)
deriving DecidableEq, Repr

/-- One image reference handed to the pipeline: its basename plus its fate. -/
structure ImageSpec where
  filename : String
  fate : ImageFate
deriving DecidableEq, Repr

/-- Metadata kept in `images_to_infer_metadata` for a cache miss, together
with the engine's (later) answer for the matching entry of
`images_to_infer_bytes`. -/
structure MissMeta where
  image_filename : String
  image_hash : String
  data : PredData
  inference_time : Rat
deriving DecidableEq, Repr

/-- The loop-local accumulators of the sweep: `current_cached`,
`current_failed`, `images_to_infer_metadata`, `predictions_to_add`. -/
structure SweepAcc where
  cached : Nat
  failed : Nat
  missMeta : List MissMeta
  toAdd : List Prediction
deriving DecidableEq, Repr

/-- Initial accumulators (lines 164–172 of tasks.py). -/
def SweepAcc.init : SweepAcc := ⟨0, 0, [], []⟩

/-- The Prediction row built for a cache hit (lines 197–206):
`from_cache=True`, `processing_time_ms=0`. -/
def cachedPrediction (jid : String) (filename hash : String) (d : PredData) :
    Prediction :=
  ⟨jid, filename, hash, d.predictedClass, d.confidence, d.top_3_classes, 0, true⟩

/-- The sentinel Prediction row for a failed image (lines 220–229):
class `"FAILED"`, confidence 0, empty alternatives; the hash is `"error"`
because the failure struck before the hash was computed. -/
def failedPrediction (jid : String) (filename : String) : Prediction :=
  ⟨jid, filename, "error", "FAILED", 0, [], 0, false⟩

/-- The Prediction row built from a batch-inference result (lines 266–275):
`from_cache=False`, `processing_time_ms` from the engine. -/
def inferredPrediction (jid : String) (m : MissMeta) : Prediction :=
  ⟨jid, m.image_filename, m.image_hash, m.data.predictedClass,
    m.data.confidence, m.data.top_3_classes, m.inference_time, false⟩

/-- Effect of one loop iteration (lines 174–229) on the accumulators. -/
def stepAcc (jid : String) (img : ImageSpec) (acc : SweepAcc) : SweepAcc :=
  match img.fate with
  | .failure =>
      { acc with failed := acc.failed + 1
                 toAdd := acc.toAdd ++ [failedPrediction jid img.filename] }
  | .hit h d =>
      { acc with cached := acc.cached + 1
                 toAdd := acc.toAdd ++ [cachedPrediction jid img.filename h d] }
  | .miss h d t =>
      { acc with missMeta := acc.missMeta ++ [⟨img.filename, h, d, t⟩] }

/-- The per-image progress update (lines 231–240):
`processed = current_processed_total - current_failed` which works out to
`cached + len(images_to_infer_metadata)`; the hit rate is recomputed when
`total_images > 0 and processed_images > 0`, reset to 0 when
`processed_images == 0`, and otherwise left as it was. -/
def progressJob (job : Job) (acc : SweepAcc) : Job :=
  let processed := acc.cached + acc.missMeta.length
  { job with
    processed_images := processed
    failed_images := acc.failed
    cached_images := acc.cached
    cache_hit_rate :=
      if job.total_images > 0 ∧ processed > 0 then
        ((acc.cached : Rat) / (processed : Rat)) * 100
      else if processed = 0 then 0
      else job.cache_hit_rate }

/-- The sweep (the `for original_path in ...` loop): processes the images in
order, committing job progress after each one.  Returns the list of
committed snapshots together with the session's job object and the final
accumulators. -/
def runSweep (jid : String) (preds0 : List Prediction) :
    List ImageSpec → Job → SweepAcc → List DbState × Job × SweepAcc
  | [], job, acc => ([], job, acc)
  | img :: rest, job, acc =>
      let acc' := stepAcc jid img acc
      let job' := progressJob job acc'
      let r := runSweep jid preds0 rest job' acc'
      (⟨job', preds0⟩ :: r.1, r.2)

/-- The final job update (lines 281–298): recompute counters from first
principles (`processed = len(image_paths) - current_failed`), recompute the
hit rate under the same rule, pick the terminal status (`FAILED` when every
image failed, otherwise `COMPLETED` whether or not some failed), and set
`completed_at`. -/
def finalizeJob (nBatch : Nat) (acc : SweepAcc) (job : Job) (t : Nat) : Job :=
  let processed := nBatch - acc.failed
  { job with
    processed_images := processed
    failed_images := acc.failed
    cached_images := acc.cached
    cache_hit_rate :=
      if job.total_images > 0 ∧ processed > 0 then
        ((acc.cached : Rat) / (processed : Rat)) * 100
      else if processed = 0 then 0
      else job.cache_hit_rate
    status :=
      if acc.failed = nBatch then .failed
      else if 0 < acc.failed then .completed
      else .completed
    completed_at := some t }

/-- The Pending→Processing guard (lines 157–162): only a PENDING job is
moved to PROCESSING (setting `started_at`) and committed. -/
def startJob (t : Nat) (job : Job) : Job :=
  if job.status = .pending then
    { job with status := .processing, started_at := some t }
  else job

/-- `process_batch_images` from `src/app/workers/tasks.py`, as the ordered
list of database snapshots it commits: the optional Pending→Processing
commit, one progress commit per image, and the final commit that also makes
all collected Prediction rows (cached and failed ones in sweep order, then
the batch-inference results) visible. -/
def process_batch_images (t : Nat) (jid : String) (st0 : DbState)
    (images : List ImageSpec) : List DbState :=
  let job1 := startJob t st0.job
  let procCommits : List DbState :=
    if st0.job.status = .pending then [⟨job1, st0.predictions⟩] else []
  let r := runSweep jid st0.predictions images job1 .init
  let allPreds := r.2.2.toAdd ++ r.2.2.missMeta.map (inferredPrediction jid)
  let finalJob := finalizeJob images.length r.2.2 r.2.1 t
  procCommits ++ r.1 ++ [⟨finalJob, st0.predictions ++ allPreds⟩]

/-- The last committed snapshot of a trace (`d` for the pre-run state, used
when nothing was committed). -/
def finalDb (trace : List DbState) (d : DbState) : DbState :=
  trace.getLastD d

/-! ### Crash path (lines 303–311)

An exception escaping the per-image guard leaves the store holding some
prefix of the commits the normal run would have made (everything after the
last successful `db.commit()` is rolled back).  The handler re-fetches the
job, forces `FAILED`, sets `completed_at`, commits, and re-raises. -/

/-- The crash handler's commit: last committed job forced to FAILED with
`completed_at` set; no Prediction rows are added (they were rolled back). -/
def crashCommit (t : Nat) (st : DbState) : DbState :=
  ⟨{ st.job with status := .failed, completed_at := some t }, st.predictions⟩

/-- A crashed batch run whose unhandled exception struck after the first
`k` commits of the normal run (the final commit of the normal run cannot
precede a crash, so only the earlier commits are eligible): the committed
trace is that prefix followed by the crash handler's commit.  The exception
is re-raised to the queue layer afterwards. -/
def crashedBatchCommits (t : Nat) (jid : String) (st0 : DbState)
    (images : List ImageSpec) (k : Nat) : List DbState :=
  let done := ((process_batch_images t jid st0 images).dropLast).take k
  done ++ [crashCommit t (finalDb done st0)]

/-- A crashed batch run as observed by the queue layer: its commit trace
and the fact that the handler always re-raises (`raise e`, line 311). -/
def crashedBatchRun (t : Nat) (jid : String) (st0 : DbState)
    (images : List ImageSpec) (k : Nat) : List DbState × Bool :=
  (crashedBatchCommits t jid st0 images k, true)

/-! ## Single-image pipeline (`process_single_image`, `src/app/workers/tasks.py`)

The one image's environment: the `os.path.exists` check fails (lines
46–51), the cache hits (line 67), the cache misses and the engine answers
(lines 72–89), or something inside the big `try` raises (for instance
`classifier.predict`), landing in the handler at lines 124–139. -/

/-- Outcome of the environment for the single-image task. -/
inductive SingleFate where
  | notFound
  | hit (hash : String) (data : PredData)
  | miss (hash : String) (data : PredData) (inference_time : Rat)
  | crash
deriving DecidableEq, Repr

/-- The progress-and-maybe-terminal update of the success paths (lines
105–113): bump `processed_images`, recompute the hit rate when
`total_images > 0` (no guard on `processed_images`, which is ≥ 1 here),
and close the job only when `processed + failed == total` — COMPLETED if
nothing failed, FAILED otherwise. -/
def singleProgress (t : Nat) (job : Job) : Job :=
  let j := { job with processed_images := job.processed_images + 1 }
  let j :=
    if j.total_images > 0 then
      { j with cache_hit_rate :=
          ((j.cached_images : Rat) / (j.processed_images : Rat)) * 100 }
    else j
  if j.processed_images + j.failed_images = j.total_images then
    { j with
      status := if j.failed_images = 0 then .completed else .failed
      completed_at := some t }
  else j

/-- The exception handler of `process_single_image` (lines 124–139): after
the rollback the job is re-fetched in its last committed state, both
`failed_images` and `processed_images` are bumped, the rate is recomputed,
and the job is closed as FAILED only if `processed + failed == total`
happens to hold after the double bump; then the exception is re-raised. -/
def singleCrashUpdate (t : Nat) (job : Job) : Job :=
  let j := { job with
    failed_images := job.failed_images + 1
    processed_images := job.processed_images + 1 }
  let j :=
    if j.total_images > 0 then
      { j with cache_hit_rate :=
          ((j.cached_images : Rat) / (j.processed_images : Rat)) * 100 }
    else j
  if j.processed_images + j.failed_images = j.total_images then
    { j with status := .failed, completed_at := some t }
  else j

/-- `process_single_image` from `src/app/workers/tasks.py`: the ordered
list of committed snapshots, paired with whether the task re-raised an
exception to the queue layer.  The missing-file path (lines 46–51) bumps
both counters and returns without touching the status or adding a
Prediction; the success paths add exactly one Prediction and may close the
job; the crash path re-raises after the handler's commit. -/
def process_single_image (t : Nat) (jid : String) (filename : String)
    (st0 : DbState) (fate : SingleFate) : List DbState × Bool :=
  let job1 := startJob t st0.job
  let procCommits : List DbState :=
    if st0.job.status = .pending then [⟨job1, st0.predictions⟩] else []
  match fate with
  | .notFound =>
      let j := { job1 with
        failed_images := job1.failed_images + 1
        processed_images := job1.processed_images + 1 }
      (procCommits ++ [⟨j, st0.predictions⟩], false)
  | .hit h d =>
      let j := { job1 with cached_images := job1.cached_images + 1 }
      let p := cachedPrediction jid filename h d
      (procCommits ++ [⟨singleProgress t j, st0.predictions ++ [p]⟩], false)
  | .miss h d time =>
      let p : Prediction :=
        ⟨jid, filename, h, d.predictedClass, d.confidence, d.top_3_classes,
          time, false⟩
      (procCommits ++ [⟨singleProgress t job1, st0.predictions ++ [p]⟩], false)
  | .crash =>
      (procCommits ++ [⟨singleCrashUpdate t job1, st0.predictions⟩], true)

/-! ## Auxiliary notions used by the statements -/

/-- The Job row as created by the dispatch endpoint
(`src/app/api/jobs.py` lines 61–65 together with the column defaults of
`src/app/models.py`): PENDING, `total_images = n`, all counters and the hit
rate 0, no timestamps. -/
def createJob (n : Nat) : Job :=
  ⟨.pending, n, 0, 0, 0, 0, none, none⟩

/-- The store as seen right after job creation: the fresh job row and no
Prediction rows. -/
def freshDb (n : Nat) : DbState :=
  ⟨createJob n, []⟩

/-- The image's per-image guard raised (step 1 of the sweep failed). -/
def isFail (i : ImageSpec) : Bool :=
  match i.fate with
  | .failure => true
  | _ => false

/-- The image was served from the cache. -/
def isHit (i : ImageSpec) : Bool :=
  match i.fate with
  | .hit _ _ => true
  | _ => false

/-- The image fell through to batch inference. -/
def isMiss (i : ImageSpec) : Bool :=
  match i.fate with
  | .miss _ _ _ => true
  | _ => false

/-- Number of failing images of a batch. -/
def nFail (l : List ImageSpec) : Nat := (l.filter isFail).length

/-- Number of cache-hit images of a batch. -/
def nHit (l : List ImageSpec) : Nat := (l.filter isHit).length

/-- Number of cache-miss images of a batch. -/
def nMiss (l : List ImageSpec) : Nat := (l.filter isMiss).length

/-- Componentwise order on the three progress counters of a job: what a
polling client must never see decrease. -/
def JobLe (a b : Job) : Prop :=
  a.processed_images ≤ b.processed_images ∧
  a.failed_images ≤ b.failed_images ∧
  a.cached_images ≤ b.cached_images

/-- The session job's counter fields agree with the loop-local
accumulators (the relationship the per-image progress update establishes). -/
def countersOk (job : Job) (acc : SweepAcc) : Prop :=
  job.processed_images = acc.cached + acc.missMeta.length ∧
  job.failed_images = acc.failed ∧
  job.cached_images = acc.cached

/-! ## Structural lemmas about the sweep -/

theorem stepAcc_counts (jid : String) (img : ImageSpec) (acc : SweepAcc) :
    ((stepAcc jid img acc).cached = acc.cached + (if isHit img then 1 else 0)) ∧
    ((stepAcc jid img acc).failed = acc.failed + (if isFail img then 1 else 0)) ∧
    ((stepAcc jid img acc).missMeta.length
      = acc.missMeta.length + (if isMiss img then 1 else 0)) ∧
    ((stepAcc jid img acc).toAdd.length
      = acc.toAdd.length + (if isHit img then 1 else 0) + (if isFail img then 1 else 0)) := by
  obtain ⟨fn, fate⟩ := img
  cases fate <;> simp [stepAcc, isHit, isFail, isMiss]

theorem stepAcc_le (jid : String) (img : ImageSpec) (acc : SweepAcc) :
    acc.cached ≤ (stepAcc jid img acc).cached ∧
    acc.failed ≤ (stepAcc jid img acc).failed ∧
    acc.missMeta.length ≤ (stepAcc jid img acc).missMeta.length := by
  obtain ⟨fn, fate⟩ := img
  cases fate <;> simp [stepAcc] <;> omega

theorem nFail_cons (i : ImageSpec) (l : List ImageSpec) :
    nFail (i :: l) = (if isFail i then 1 else 0) + nFail l := by
  simp only [nFail, List.filter_cons]
  cases h : isFail i <;> simp [h] <;> omega

theorem nHit_cons (i : ImageSpec) (l : List ImageSpec) :
    nHit (i :: l) = (if isHit i then 1 else 0) + nHit l := by
  simp only [nHit, List.filter_cons]
  cases h : isHit i <;> simp [h] <;> omega

theorem nMiss_cons (i : ImageSpec) (l : List ImageSpec) :
    nMiss (i :: l) = (if isMiss i then 1 else 0) + nMiss l := by
  simp only [nMiss, List.filter_cons]
  cases h : isMiss i <;> simp [h] <;> omega

/-- Each image is exactly one of failure / hit / miss, so the three counts
partition the batch. -/
theorem counts_partition :
    ∀ l : List ImageSpec, nHit l + nMiss l + nFail l = l.length
  | [] => by simp [nHit, nMiss, nFail]
  | i :: l => by
      have ih := counts_partition l
      rw [nHit_cons, nMiss_cons, nFail_cons]
      obtain ⟨fn, fate⟩ := i
      cases fate <;> simp [isHit, isMiss, isFail] <;> omega

theorem runSweep_counts (jid : String) (preds0 : List Prediction) :
    ∀ (images : List ImageSpec) (job : Job) (acc : SweepAcc),
      ((runSweep jid preds0 images job acc).2.2.cached = acc.cached + nHit images) ∧
      ((runSweep jid preds0 images job acc).2.2.failed = acc.failed + nFail images) ∧
      ((runSweep jid preds0 images job acc).2.2.missMeta.length
        = acc.missMeta.length + nMiss images) ∧
      ((runSweep jid preds0 images job acc).2.2.toAdd.length
        = acc.toAdd.length + nHit images + nFail images)
  | [], job, acc => by simp [runSweep, nHit, nFail, nMiss]
  | img :: rest, job, acc => by
      have hs := stepAcc_counts jid img acc
      have ih := runSweep_counts jid preds0 rest (progressJob job (stepAcc jid img acc))
        (stepAcc jid img acc)
      simp only [runSweep]
      rw [nHit_cons, nFail_cons, nMiss_cons]
      refine ⟨?_, ?_, ?_, ?_⟩
      · rw [ih.1, hs.1]; omega
      · rw [ih.2.1, hs.2.1]; omega
      · rw [ih.2.2.1, hs.2.2.1]; omega
      · rw [ih.2.2.2, hs.2.2.2]; omega

/-- The sweep commits one snapshot per image, every one of them carrying
exactly the Prediction rows that were in the store before the run. -/
theorem runSweep_commits (jid : String) (preds0 : List Prediction) :
    ∀ (images : List ImageSpec) (job : Job) (acc : SweepAcc),
      ((runSweep jid preds0 images job acc).1.length = images.length) ∧
      (∀ st ∈ (runSweep jid preds0 images job acc).1, st.predictions = preds0)
  | [], job, acc => by simp [runSweep]
  | img :: rest, job, acc => by
      have ih := runSweep_commits jid preds0 rest (progressJob job (stepAcc jid img acc))
        (stepAcc jid img acc)
      simp only [runSweep, List.length_cons, List.mem_cons]
      refine ⟨by rw [ih.1], ?_⟩
      rintro st (rfl | h)
      · rfl
      · exact ih.2 st h

/-- The sweep never touches the status, total, or timestamps of the job:
those are exactly the fields `progressJob` leaves alone. -/
theorem runSweep_frame (jid : String) (preds0 : List Prediction) :
    ∀ (images : List ImageSpec) (job : Job) (acc : SweepAcc),
      ((runSweep jid preds0 images job acc).2.1.status = job.status ∧
       (runSweep jid preds0 images job acc).2.1.total_images = job.total_images ∧
       (runSweep jid preds0 images job acc).2.1.started_at = job.started_at ∧
       (runSweep jid preds0 images job acc).2.1.completed_at = job.completed_at) ∧
      (∀ st ∈ (runSweep jid preds0 images job acc).1,
        st.job.status = job.status ∧ st.job.total_images = job.total_images ∧
        st.job.started_at = job.started_at ∧ st.job.completed_at = job.completed_at)
  | [], job, acc => by simp [runSweep]
  | img :: rest, job, acc => by
      have ih := runSweep_frame jid preds0 rest (progressJob job (stepAcc jid img acc))
        (stepAcc jid img acc)
      simp only [runSweep, List.mem_cons]
      constructor
      · exact ⟨ih.1.1, ih.1.2.1, ih.1.2.2.1, ih.1.2.2.2⟩
      · rintro st (rfl | h)
        · exact ⟨rfl, rfl, rfl, rfl⟩
        · exact ih.2 st h

/-- The session job stays consistent with the accumulators across the
sweep (the per-image progress update re-establishes `countersOk`). -/
theorem runSweep_countersOk (jid : String) (preds0 : List Prediction) :
    ∀ (images : List ImageSpec) (job : Job) (acc : SweepAcc), countersOk job acc →
      countersOk (runSweep jid preds0 images job acc).2.1
        (runSweep jid preds0 images job acc).2.2
  | [], _, _, h => h
  | img :: rest, job, acc, _ =>
      runSweep_countersOk jid preds0 rest (progressJob job (stepAcc jid img acc))
        (stepAcc jid img acc) ⟨rfl, rfl, rfl⟩

/-- The commits of the sweep are monotone in the three counters, starting
from a job consistent with the incoming accumulators. -/
theorem runSweep_chain (jid : String) (preds0 : List Prediction) :
    ∀ (images : List ImageSpec) (job : Job) (acc : SweepAcc), countersOk job acc →
      List.Chain' (fun a b => JobLe a.job b.job)
        (⟨job, preds0⟩ :: (runSweep jid preds0 images job acc).1)
  | [], job, acc, _ => by simp [runSweep]
  | img :: rest, job, acc, h => by
      have hle := stepAcc_le jid img acc
      have ih := runSweep_chain jid preds0 rest (progressJob job (stepAcc jid img acc))
        (stepAcc jid img acc) ⟨rfl, rfl, rfl⟩
      simp only [runSweep]
      rw [List.chain'_cons]
      refine ⟨⟨?_, ?_, ?_⟩, ih⟩
      · show job.processed_images
          ≤ (stepAcc jid img acc).cached + (stepAcc jid img acc).missMeta.length
        rw [h.1]
        exact Nat.add_le_add hle.1 hle.2.2
      · show job.failed_images ≤ (stepAcc jid img acc).failed
        rw [h.2.1]; exact hle.2.1
      · show job.cached_images ≤ (stepAcc jid img acc).cached
        rw [h.2.2]; exact hle.1

/-- The last snapshot the sweep commits carries the threaded job. -/
theorem runSweep_getLast (jid : String) (preds0 : List Prediction) :
    ∀ (images : List ImageSpec) (job : Job) (acc : SweepAcc),
      (runSweep jid preds0 images job acc).1.getLastD ⟨job, preds0⟩
        = ⟨(runSweep jid preds0 images job acc).2.1, preds0⟩
  | [], job, acc => rfl
  | img :: rest, job, acc => by
      simp only [runSweep]
      rw [List.getLastD_cons]
      exact runSweep_getLast jid preds0 rest (progressJob job (stepAcc jid img acc))
        (stepAcc jid img acc)

/-- `predictions_to_add` only grows during the sweep. -/
theorem runSweep_toAdd_mono (jid : String) (preds0 : List Prediction) :
    ∀ (images : List ImageSpec) (job : Job) (acc : SweepAcc) (p : Prediction),
      p ∈ acc.toAdd → p ∈ (runSweep jid preds0 images job acc).2.2.toAdd
  | [], _, _, _, hp => hp
  | img :: rest, job, acc, p, hp => by
      have hstep : p ∈ (stepAcc jid img acc).toAdd := by
        obtain ⟨fn, fate⟩ := img
        cases fate <;> simp [stepAcc] <;> first | exact Or.inl hp | exact hp
      exact runSweep_toAdd_mono jid preds0 rest (progressJob job (stepAcc jid img acc))
        (stepAcc jid img acc) p hstep

/-- Every failing image of the batch deposits its sentinel Prediction row
in `predictions_to_add`. -/
theorem runSweep_fail_mem (jid : String) (preds0 : List Prediction) :
    ∀ (images : List ImageSpec) (job : Job) (acc : SweepAcc),
      ∀ i ∈ images, isFail i = true →
        failedPrediction jid i.filename ∈ (runSweep jid preds0 images job acc).2.2.toAdd
  | [], _, _, i, hi, _ => absurd hi (List.not_mem_nil i)
  | img :: rest, job, acc, i, hi, hfail => by
      rcases List.mem_cons.mp hi with rfl | hmem
      · refine runSweep_toAdd_mono jid preds0 rest _ _ _ ?_
        obtain ⟨fn, fate⟩ := i
        cases fate with
        | failure => simp [stepAcc]
        | hit h d => exact absurd hfail (by simp [isFail])
        | miss h d tm => exact absurd hfail (by simp [isFail])
      · exact runSweep_fail_mem jid preds0 rest (progressJob job (stepAcc jid img acc))
          (stepAcc jid img acc) i hmem hfail

/-- `(a :: l).getLast?` in terms of `getLastD`. -/
theorem getLast?_cons_getLastD (a : α) :
    ∀ l : List α, (a :: l).getLast? = some (l.getLastD a)
  | [] => rfl
  | b :: l => by
      rw [List.getLast?_cons_cons, getLast?_cons_getLastD b l, List.getLastD_cons]

/-- The Pending→Processing guard touches only `status` and `started_at`. -/
theorem startJob_fields (t : Nat) (j : Job) :
    (startJob t j).total_images = j.total_images ∧
    (startJob t j).processed_images = j.processed_images ∧
    (startJob t j).failed_images = j.failed_images ∧
    (startJob t j).cached_images = j.cached_images ∧
    (startJob t j).completed_at = j.completed_at := by
  unfold startJob
  split <;> exact ⟨rfl, rfl, rfl, rfl, rfl⟩

/-- Field values of the final job update. -/
theorem finalizeJob_fields (n : Nat) (acc : SweepAcc) (job : Job) (t : Nat) :
    (finalizeJob n acc job t).total_images = job.total_images ∧
    (finalizeJob n acc job t).failed_images = acc.failed ∧
    (finalizeJob n acc job t).cached_images = acc.cached ∧
    (finalizeJob n acc job t).processed_images = n - acc.failed ∧
    (finalizeJob n acc job t).status
      = (if acc.failed = n then JobStatus.failed else JobStatus.completed) ∧
    (finalizeJob n acc job t).completed_at = some t ∧
    (finalizeJob n acc job t).started_at = job.started_at := by
  unfold finalizeJob
  refine ⟨rfl, rfl, rfl, rfl, ?_, rfl, rfl⟩
  by_cases h : acc.failed = n <;> simp [h]

/-- Both status branches of the final update are terminal. -/
theorem finalizeJob_terminal (n : Nat) (acc : SweepAcc) (job : Job) (t : Nat) :
    (finalizeJob n acc job t).status.isTerminal = true := by
  rw [(finalizeJob_fields n acc job t).2.2.2.2.1]
  by_cases h : acc.failed = n <;> simp [h, JobStatus.isTerminal]

/-- The last snapshot a batch run commits. -/
def batchFinal (t : Nat) (jid : String) (st0 : DbState) (images : List ImageSpec) :
    DbState :=
  finalDb (process_batch_images t jid st0 images) st0

/-- The batch run always ends on the final-update commit: the finalized job
together with all Prediction rows collected during the run. -/
theorem batchFinal_eq (t : Nat) (jid : String) (st0 : DbState)
    (images : List ImageSpec) :
    batchFinal t jid st0 images
      = ⟨finalizeJob images.length
            (runSweep jid st0.predictions images (startJob t st0.job) .init).2.2
            (runSweep jid st0.predictions images (startJob t st0.job) .init).2.1 t,
          st0.predictions
            ++ ((runSweep jid st0.predictions images (startJob t st0.job) .init).2.2.toAdd
              ++ (runSweep jid st0.predictions images (startJob t st0.job) .init).2.2.missMeta.map
                  (inferredPrediction jid))⟩ := by
  unfold batchFinal process_batch_images finalDb
  rw [List.getLastD_concat]

/-- Shape of the final commit of a batch run started on a freshly created
job record: counters from first principles, terminal status by the
all-failed rule, one Prediction row per image. -/
theorem batchFinal_spec (t : Nat) (jid : String) (n : Nat)
    (images : List ImageSpec) :
    (batchFinal t jid (freshDb n) images).job.total_images = n ∧
    (batchFinal t jid (freshDb n) images).job.failed_images = nFail images ∧
    (batchFinal t jid (freshDb n) images).job.cached_images = nHit images ∧
    (batchFinal t jid (freshDb n) images).job.processed_images
      = images.length - nFail images ∧
    (batchFinal t jid (freshDb n) images).job.status
      = (if nFail images = images.length then JobStatus.failed
          else JobStatus.completed) ∧
    (batchFinal t jid (freshDb n) images).job.completed_at = some t ∧
    (batchFinal t jid (freshDb n) images).predictions.length = images.length := by
  have hrw := batchFinal_eq t jid (freshDb n) images
  have hcounts := runSweep_counts jid (freshDb n).predictions images
    (startJob t (freshDb n).job) .init
  have hframe := (runSweep_frame jid (freshDb n).predictions images
    (startJob t (freshDb n).job) .init).1
  have hfin := finalizeJob_fields images.length
    (runSweep jid (freshDb n).predictions images (startJob t (freshDb n).job) .init).2.2
    (runSweep jid (freshDb n).predictions images (startJob t (freshDb n).job) .init).2.1 t
  rw [hrw]
  dsimp only
  refine ⟨?_, ?_, ?_, ?_, ?_, ?_, ?_⟩
  · rw [hfin.1, hframe.2.1, (startJob_fields t (freshDb n).job).1]
    rfl
  · rw [hfin.2.1, hcounts.2.1]
    dsimp only [SweepAcc.init]
    omega
  · rw [hfin.2.2.1, hcounts.1]
    dsimp only [SweepAcc.init]
    omega
  · rw [hfin.2.2.2.1, hcounts.2.1]
    dsimp only [SweepAcc.init]
    omega
  · rw [hfin.2.2.2.2.1, hcounts.2.1]
    dsimp only [SweepAcc.init]
    rw [Nat.zero_add]
  · exact hfin.2.2.2.2.2.1
  · have hpart := counts_partition images
    simp only [List.length_append, List.length_map]
    rw [hcounts.2.2.2, hcounts.2.2.1]
    show 0 + (SweepAcc.init.toAdd.length + nHit images + nFail images
        + (SweepAcc.init.missMeta.length + nMiss images)) = images.length
    show 0 + (0 + nHit images + nFail images + (0 + nMiss images)) = images.length
    omega

/-! ## Concrete scenarios -/

/-- A sample classification payload (an engine / cache answer). -/
def dSample : PredData := ⟨"COVID", 9/10, ["COVID", "NORMAL", "Viral Pneumonia"]⟩

/-- The spec's partial-failure scenario: a batch of five images of which
two (`a.png`, `d.png`) are unreadable, one is a cache hit and two are
cache misses answered by the engine. -/
def scenario5 : List ImageSpec :=
  [⟨"a.png", .failure⟩,
   ⟨"b.png", .hit "h-b" dSample⟩,
   ⟨"c.png", .miss "h-c" dSample 5⟩,
   ⟨"d.png", .failure⟩,
   ⟨"e.png", .miss "h-e" dSample 7⟩]

/-- The store after `process_single_image` ran on a fresh one-image job
whose image file does not exist (`os.path.exists` is false). -/
def singleFailDb : DbState :=
  finalDb (process_single_image 0 "job-s" "img.png" (freshDb 1) .notFound).1 (freshDb 1)

/-- The store after `process_batch_images` ran on a fresh one-image job
whose single image is unreadable. -/
def batchFailDb : DbState :=
  finalDb (process_batch_images 0 "job-s" (freshDb 1) [⟨"img.png", .failure⟩]) (freshDb 1)

/-- The store after a successful one-image batch run: a COMPLETED job with
its one Prediction row — the state in which a task re-delivery may arrive. -/
def completedDb : DbState :=
  finalDb (process_batch_images 0 "job-r" (freshDb 1) [⟨"img.png", .miss "h-r" dSample 3⟩])
    (freshDb 1)

/-- The store after a crashed batch run: the engine raised during batch
inference of a fresh one-image job, after the Pending→Processing commit
and the one progress commit (crash point `k = 2`). -/
def crashedDb : DbState :=
  finalDb (crashedBatchCommits 0 "job-x" (freshDb 1) [⟨"img.png", .miss "h-x" dSample 3⟩] 2)
    (freshDb 1)

/-! ## Claims -/

/-- C1: the spec's invariant `processed_images + failed_images ≤
total_images` fails on the code: `process_single_image` increments BOTH
`failed_images` and `processed_images` when the image file is missing
(tasks.py lines 46–51), committing `1 + 1 > 1` on a fresh one-image job —
which also makes the completion check of lines 110–113 unsatisfiable, so
the job never reaches a terminal status. -/
theorem single_failure_violates_counter_invariant :
    singleFailDb.job.processed_images + singleFailDb.job.failed_images
        > singleFailDb.job.total_images ∧
    singleFailDb.job.processed_images = 1 ∧
    singleFailDb.job.failed_images = 1 ∧
    singleFailDb.job.total_images = 1 ∧
    singleFailDb.job.status.isTerminal = false := by decide

/-- C3 counterexample: on a failing image the two pipelines do NOT agree —
the single-image pipeline commits `processed_images = 1, failed_images = 1`
and leaves the job PROCESSING, while the batch pipeline on the one-element
list commits `processed_images = 0, failed_images = 1` and ends FAILED. -/
theorem single_batch_disagree_on_failure :
    singleFailDb.job.processed_images = 1 ∧
    batchFailDb.job.processed_images = 0 ∧
    singleFailDb.job.status = .processing ∧
    batchFailDb.job.status = .failed ∧
    singleFailDb.job ≠ batchFailDb.job := by decide

/-- C4 counterexample: a job made terminal by the crash path has no
Prediction rows at all, so "count(Predictions) = total_images" fails for a
job that reached a terminal status (total_images = 1 here). -/
theorem crashed_terminal_job_has_no_predictions :
    crashedDb.job.status.isTerminal = true ∧
    crashedDb.job.total_images = 1 ∧
    crashedDb.predictions.length = 0 := by decide

/-- C5: re-delivering the dispatch of an already-COMPLETED job is not a
no-op: the batch pipeline re-runs the sweep, overwrites the counters
(processed 1→0, failed 0→1), appends a second Prediction row, and even
flips the terminal status COMPLETED→FAILED when the file has since become
unreadable. -/
theorem redelivery_of_terminal_job_reprocesses :
    completedDb.job.status = .completed ∧
    completedDb.job.processed_images = 1 ∧
    completedDb.job.failed_images = 0 ∧
    completedDb.predictions.length = 1 ∧
    (finalDb (process_batch_images 1 "job-r" completedDb [⟨"img.png", .failure⟩])
        completedDb).job.status = .failed ∧
    (finalDb (process_batch_images 1 "job-r" completedDb [⟨"img.png", .failure⟩])
        completedDb).job.processed_images = 0 ∧
    (finalDb (process_batch_images 1 "job-r" completedDb [⟨"img.png", .failure⟩])
        completedDb).job.failed_images = 1 ∧
    (finalDb (process_batch_images 1 "job-r" completedDb [⟨"img.png", .failure⟩])
        completedDb).predictions.length = 2 := by decide

/-- C6 counterexample: a batch dispatch with an empty image list ends with
status FAILED, not COMPLETED (`current_failed == total_images_in_batch`
holds vacuously as `0 == 0` in tasks.py line 291). -/
theorem empty_batch_is_failed_not_completed :
    (finalDb (process_batch_images 0 "job-e" (freshDb 0) []) (freshDb 0)).job.status
        = .failed ∧
    (finalDb (process_batch_images 0 "job-e" (freshDb 0) []) (freshDb 0)).job.status
        ≠ .completed := by decide

/-- C7 counterexample: when the single-image pipeline's guarded block
raises, the task re-raises (line 139) but — because of the double counter
bump — the terminal check fails and the job is left PROCESSING with no
`completed_at`, contradicting "the job's status is set to Failed" for this
pipeline run. -/
theorem single_crash_leaves_job_nonterminal :
    (process_single_image 0 "job-c" "img.png" (freshDb 1) .crash).2 = true ∧
    (finalDb (process_single_image 0 "job-c" "img.png" (freshDb 1) .crash).1
        (freshDb 1)).job.status = .processing ∧
    (finalDb (process_single_image 0 "job-c" "img.png" (freshDb 1) .crash).1
        (freshDb 1)).job.status.isTerminal = false ∧
    (finalDb (process_single_image 0 "job-c" "img.png" (freshDb 1) .crash).1
        (freshDb 1)).job.completed_at = none := by decide

/-- A disabled cache ignores every write. -/
theorem setMany_disabled (store : List (String × CacheEntry)) :
    ∀ ops : List SetOp, setMany ⟨false, store⟩ ops = ⟨false, store⟩
  | [] => rfl
  | op :: ops => setMany_disabled store ops

/-- C9: cache operations are best-effort and never surface to the
pipeline (both wrappers catch the store error and return): a store error
makes `get_prediction` a miss and `set_prediction` a no-op, and with
`CACHE_ENABLED = false` every `get_prediction` misses and every
`set_prediction` is a no-op regardless of any sequence of prior writes. -/
theorem cache_best_effort :
    (∀ (s : CacheState) (h : String), get_prediction s true h = none) ∧
    (∀ (s : CacheState) (h : String) (p : PredData) (ttl : Option Nat),
        set_prediction s true h p ttl = s) ∧
    (∀ (store : List (String × CacheEntry)) (ops : List SetOp) (e : Bool)
        (h : String),
        get_prediction (setMany ⟨false, store⟩ ops) e h = none) ∧
    (∀ (store : List (String × CacheEntry)) (ops : List SetOp) (e : Bool)
        (h : String) (p : PredData) (ttl : Option Nat),
        set_prediction (setMany ⟨false, store⟩ ops) e h p ttl
          = setMany ⟨false, store⟩ ops) := by
  refine ⟨?_, ?_, ?_, ?_⟩
  · rintro ⟨e, st⟩ h
    cases e <;> rfl
  · rintro ⟨e, st⟩ h p ttl
    cases e <;> rfl
  · intro store ops e h
    rw [setMany_disabled store ops]
    rfl
  · intro store ops e h p ttl
    rw [setMany_disabled store ops]
    rfl

/-- C6 (amended): a batch dispatch on an empty image list makes exactly
two commits — the Pending→Processing commit and, immediately, the final
commit with terminal status FAILED, `cache_hit_rate = 0` and no Prediction
rows. -/
theorem empty_batch_completes_immediately (t : Nat) (jid : String) :
    process_batch_images t jid (freshDb 0) []
      = [⟨⟨.processing, 0, 0, 0, 0, 0, some t, none⟩, []⟩,
         ⟨⟨.failed, 0, 0, 0, 0, 0, some t, some t⟩, []⟩] ∧
    (batchFinal t jid (freshDb 0) []).job.status = .failed ∧
    (batchFinal t jid (freshDb 0) []).job.cache_hit_rate = 0 ∧
    (batchFinal t jid (freshDb 0) []).job.status.isTerminal = true := by
  exact ⟨rfl, rfl, rfl, rfl⟩

/-- C7 (amended, batch pipeline): whatever prefix of the run was committed
when the unhandled exception struck, the crash handler forces the job to
FAILED with `completed_at` set, commits nothing else (at most the `k`
already-committed snapshots plus the handler's one), and the task
re-raises the exception. -/
theorem batch_crash_forces_failed_and_reraises (t : Nat) (jid : String)
    (st0 : DbState) (images : List ImageSpec) (k : Nat) :
    (finalDb (crashedBatchCommits t jid st0 images k) st0).job.status = .failed ∧
    (finalDb (crashedBatchCommits t jid st0 images k) st0).job.completed_at
        = some t ∧
    (crashedBatchCommits t jid st0 images k).length ≤ k + 1 ∧
    (crashedBatchRun t jid st0 images k).2 = true := by
  refine ⟨?_, ?_, ?_, rfl⟩
  · unfold crashedBatchCommits finalDb
    rw [List.getLastD_concat]
    rfl
  · unfold crashedBatchCommits finalDb
    rw [List.getLastD_concat]
    rfl
  · unfold crashedBatchCommits
    have hlen := List.length_take k (process_batch_images t jid st0 images).dropLast
    simp only [List.length_append, List.length_singleton]
    omega

/-- C2: at the final commit of any batch run on a freshly created job,
`processed + failed = total`, the job is COMPLETED exactly when
`failed < total`, and FAILED exactly when `failed = total`; in particular
the spec's 5-image / 2-unreadable scenario ends COMPLETED with
`failed_images = 2`, `processed_images = 3` and exactly 5 Prediction rows. -/
theorem batch_terminal_status_rule :
    (∀ (t : Nat) (jid : String) (images : List ImageSpec),
      (batchFinal t jid (freshDb images.length) images).job.processed_images
          + (batchFinal t jid (freshDb images.length) images).job.failed_images
        = (batchFinal t jid (freshDb images.length) images).job.total_images ∧
      ((batchFinal t jid (freshDb images.length) images).job.status = .completed
        ↔ (batchFinal t jid (freshDb images.length) images).job.failed_images
            < (batchFinal t jid (freshDb images.length) images).job.total_images) ∧
      ((batchFinal t jid (freshDb images.length) images).job.status = .failed
        ↔ (batchFinal t jid (freshDb images.length) images).job.failed_images
            = (batchFinal t jid (freshDb images.length) images).job.total_images)) ∧
    ((batchFinal 0 "job-5" (freshDb 5) scenario5).job.status = .completed ∧
     (batchFinal 0 "job-5" (freshDb 5) scenario5).job.failed_images = 2 ∧
     (batchFinal 0 "job-5" (freshDb 5) scenario5).job.processed_images = 3 ∧
     (batchFinal 0 "job-5" (freshDb 5) scenario5).predictions.length = 5) := by
  constructor
  · intro t jid images
    have hs := batchFinal_spec t jid images.length images
    have hle : nFail images ≤ images.length := by
      have := counts_partition images
      omega
    refine ⟨?_, ?_, ?_⟩
    · rw [hs.2.2.2.1, hs.2.1, hs.1]
      omega
    · rw [hs.2.2.2.2.1, hs.2.1, hs.1]
      by_cases hf : nFail images = images.length <;> simp [hf] <;> omega
    · rw [hs.2.2.2.2.1, hs.2.1, hs.1]
      by_cases hf : nFail images = images.length <;> simp [hf]
  · exact ⟨by decide, by decide, by decide, by decide⟩

/-- C3 (amended): on success outcomes — a cache hit, or a miss answered by
the engine — the single-image pipeline and the batch pipeline on the
one-element list commit identical final store snapshots for a fresh
one-image job (same counters, same `cache_hit_rate`, same terminal status,
same Prediction row); the divergence between the two pipelines is confined
to failing images. -/
theorem single_batch_agree_on_success (t : Nat) (jid fname h : String)
    (d : PredData) (time : Rat) :
    finalDb (process_single_image t jid fname (freshDb 1) (.hit h d)).1 (freshDb 1)
      = batchFinal t jid (freshDb 1) [⟨fname, .hit h d⟩] ∧
    finalDb (process_single_image t jid fname (freshDb 1) (.miss h d time)).1 (freshDb 1)
      = batchFinal t jid (freshDb 1) [⟨fname, .miss h d time⟩] := by
  exact ⟨rfl, rfl⟩

/-- A batch run on a PENDING job: Pending→Processing commit, sweep commits,
final commit. -/
theorem process_batch_images_pending (t : Nat) (jid : String) (st0 : DbState)
    (images : List ImageSpec) (hp : st0.job.status = .pending) :
    process_batch_images t jid st0 images
      = ⟨startJob t st0.job, st0.predictions⟩ ::
          ((runSweep jid st0.predictions images (startJob t st0.job) .init).1
            ++ [⟨finalizeJob images.length
                  (runSweep jid st0.predictions images (startJob t st0.job) .init).2.2
                  (runSweep jid st0.predictions images (startJob t st0.job) .init).2.1 t,
                st0.predictions
                  ++ ((runSweep jid st0.predictions images (startJob t st0.job) .init).2.2.toAdd
                    ++ (runSweep jid st0.predictions images (startJob t st0.job) .init).2.2.missMeta.map
                        (inferredPrediction jid))⟩]) := by
  simp only [process_batch_images]
  rw [if_pos hp]
  rfl

theorem dropLast_cons_append_singleton (a : α) (l : List α) (b : α) :
    (a :: (l ++ [b])).dropLast = a :: l := by
  rw [show a :: (l ++ [b]) = (a :: l) ++ [b] from rfl, List.dropLast_concat]

/-- Appending one element to a nonempty chain. -/
theorem chain'_snoc {R : α → α → Prop} (a : α) (l : List α) (b : α)
    (hc : List.Chain' R (a :: l)) (hR : R (l.getLastD a) b) :
    List.Chain' R ((a :: l) ++ [b]) := by
  refine List.Chain'.append hc (List.chain'_singleton b) ?_
  intro x hx y hy
  rw [getLast?_cons_getLastD] at hx
  simp only [Option.mem_def, Option.some.injEq, List.head?_cons] at hx hy
  subst hx
  subst hy
  exact hR

/-- C4 (amended): every batch run that finishes its sweep normally (no
unhandled exception) ends on a terminal commit carrying exactly one
Prediction row per image of the batch; each failing image contributed its
failure-sentinel row (class "FAILED", confidence 0, no alternatives); and
no commit before the final one carries any Prediction row, so rows are
written exactly once and never touched again. -/
theorem terminal_job_prediction_count (t : Nat) (jid : String)
    (images : List ImageSpec) :
    (batchFinal t jid (freshDb images.length) images).job.status.isTerminal
        = true ∧
    (batchFinal t jid (freshDb images.length) images).predictions.length
      = (batchFinal t jid (freshDb images.length) images).job.total_images ∧
    (∀ i ∈ images, isFail i = true →
      failedPrediction jid i.filename
        ∈ (batchFinal t jid (freshDb images.length) images).predictions) ∧
    (∀ fname, (failedPrediction jid fname).predicted_class = "FAILED" ∧
      (failedPrediction jid fname).confidence = 0 ∧
      (failedPrediction jid fname).top_3_classes = []) ∧
    (∀ st ∈ (process_batch_images t jid (freshDb images.length) images).dropLast,
      st.predictions = []) := by
  have hs := batchFinal_spec t jid images.length images
  refine ⟨?_, ?_, ?_, ?_, ?_⟩
  · rw [hs.2.2.2.2.1]
    by_cases hf : nFail images = images.length <;> simp [hf, JobStatus.isTerminal]
  · rw [hs.2.2.2.2.2.2, hs.1]
  · intro i hi hfail
    rw [batchFinal_eq]
    dsimp only
    refine List.mem_append.mpr (Or.inr (List.mem_append.mpr (Or.inl ?_)))
    exact runSweep_fail_mem jid (freshDb images.length).predictions images
      (startJob t (freshDb images.length).job) .init i hi hfail
  · intro fname
    exact ⟨rfl, rfl, rfl⟩
  · intro st hst
    rw [process_batch_images_pending t jid (freshDb images.length) images rfl,
      dropLast_cons_append_singleton] at hst
    rcases List.mem_cons.mp hst with rfl | hmem
    · rfl
    · exact (runSweep_commits jid (freshDb images.length).predictions images
        (startJob t (freshDb images.length).job) .init).2 st hmem

/-- Witness for the amended C4 at the five-image scenario: the first
unreadable image's sentinel row is among the final Prediction rows. -/
theorem terminal_job_prediction_count_witness :
    (⟨"a.png", ImageFate.failure⟩ : ImageSpec) ∈ scenario5 ∧
    isFail ⟨"a.png", ImageFate.failure⟩ = true ∧
    failedPrediction "job-5" "a.png"
      ∈ (batchFinal 0 "job-5" (freshDb scenario5.length) scenario5).predictions ∧
    (⟨startJob 0 (freshDb scenario5.length).job, []⟩ : DbState).predictions = [] := by
  refine ⟨by decide, rfl, ?_, ?_⟩
  · exact (terminal_job_prediction_count 0 "job-5" scenario5).2.2.1
      ⟨"a.png", ImageFate.failure⟩ (by decide) rfl
  · refine (terminal_job_prediction_count 0 "job-5" scenario5).2.2.2.2 _ ?_
    rw [process_batch_images_pending 0 "job-5" (freshDb scenario5.length) scenario5 rfl,
      dropLast_cons_append_singleton]
    exact List.mem_cons_self _ _

/-- The last snapshot of a trace ending in a given commit is that commit. -/
theorem finalDb_concat (l : List DbState) (a d : DbState) :
    finalDb (l ++ [a]) d = a :=
  List.getLastD_concat _ _ _

/-- Cutting a monotone commit trace at any crash point and appending the
crash handler's commit keeps it monotone: the handler's commit changes no
counter. -/
theorem crashed_chain_of_chain (t : Nat) (d : DbState) (l : List DbState)
    (k : Nat)
    (h : List.Chain' (fun a b => JobLe a.job b.job) (d :: l)) :
    List.Chain' (fun a b => JobLe a.job b.job)
      (d :: (l.take k ++ [crashCommit t (finalDb (l.take k) d)])) := by
  have htake := h.take (k + 1)
  rw [List.take_succ_cons] at htake
  show List.Chain' _ ((d :: l.take k) ++ [crashCommit t (finalDb (l.take k) d)])
  refine chain'_snoc _ _ _ htake ?_
  show JobLe ((l.take k).getLastD d).job
    (crashCommit t (finalDb (l.take k) d)).job
  exact ⟨Nat.le_refl _, Nat.le_refl _, Nat.le_refl _⟩

/-- C8: starting from a freshly created job record, the committed
snapshots of a batch run — initial state, Pending→Processing commit, one
progress commit per image, final commit — never decrease any of the three
progress counters, and the run ends on a terminal status; the same holds
for a run aborted by an unhandled exception at any crash point, whose
trace ends on the crash handler's FAILED commit.  A poller reading the
store therefore always sees a non-regressing counter view ending terminal. -/
theorem polling_view_monotone (t : Nat) (jid : String) (n : Nat)
    (images : List ImageSpec) :
    List.Chain' (fun a b => JobLe a.job b.job)
      (freshDb n :: process_batch_images t jid (freshDb n) images) ∧
    (batchFinal t jid (freshDb n) images).job.status.isTerminal = true ∧
    ∀ k, List.Chain' (fun a b => JobLe a.job b.job)
        (freshDb n :: crashedBatchCommits t jid (freshDb n) images k) ∧
      (finalDb (crashedBatchCommits t jid (freshDb n) images k)
          (freshDb n)).job.status.isTerminal = true := by
  have hOk : countersOk (startJob t (freshDb n).job) SweepAcc.init := ⟨rfl, rfl, rfl⟩
  have hchain1 := runSweep_chain jid (freshDb n).predictions images
    (startJob t (freshDb n).job) .init hOk
  have hsf := startJob_fields t (freshDb n).job
  have hlink0 : JobLe (freshDb n).job (startJob t (freshDb n).job) :=
    ⟨Nat.le_of_eq hsf.2.1.symm, Nat.le_of_eq hsf.2.2.1.symm,
      Nat.le_of_eq hsf.2.2.2.1.symm⟩
  have hchain2 : List.Chain' (fun a b => JobLe a.job b.job)
      (freshDb n :: (⟨startJob t (freshDb n).job, (freshDb n).predictions⟩ : DbState)
        :: (runSweep jid (freshDb n).predictions images (startJob t (freshDb n).job) .init).1) :=
    List.Chain'.cons hlink0 hchain1
  have hok2 := runSweep_countersOk jid (freshDb n).predictions images
    (startJob t (freshDb n).job) .init hOk
  have hcounts := runSweep_counts jid (freshDb n).predictions images
    (startJob t (freshDb n).job) .init
  have hpart := counts_partition images
  have hfin := finalizeJob_fields images.length
    (runSweep jid (freshDb n).predictions images (startJob t (freshDb n).job) .init).2.2
    (runSweep jid (freshDb n).predictions images (startJob t (freshDb n).job) .init).2.1 t
  have hlinkf : JobLe
      (runSweep jid (freshDb n).predictions images (startJob t (freshDb n).job) .init).2.1
      (finalizeJob images.length
        (runSweep jid (freshDb n).predictions images (startJob t (freshDb n).job) .init).2.2
        (runSweep jid (freshDb n).predictions images (startJob t (freshDb n).job) .init).2.1 t) := by
    refine ⟨?_, ?_, ?_⟩
    · have h1 := hfin.2.2.2.1
      have h2 := hok2.1
      have h3 := hcounts.1.trans (Nat.zero_add _)
      have h4 := hcounts.2.1.trans (Nat.zero_add _)
      have h5 := hcounts.2.2.1.trans (Nat.zero_add _)
      omega
    · rw [hfin.2.1, hok2.2.1]
    · rw [hfin.2.2.1, hok2.2.2]
  have hdrop : (process_batch_images t jid (freshDb n) images).dropLast
      = ⟨startJob t (freshDb n).job, (freshDb n).predictions⟩
          :: (runSweep jid (freshDb n).predictions images (startJob t (freshDb n).job) .init).1 := by
    rw [process_batch_images_pending t jid (freshDb n) images rfl,
      dropLast_cons_append_singleton]
  have hl : List.Chain' (fun a b => JobLe a.job b.job)
      (freshDb n :: (process_batch_images t jid (freshDb n) images).dropLast) := by
    rw [hdrop]
    exact hchain2
  refine ⟨?_, ?_, ?_⟩
  · rw [process_batch_images_pending t jid (freshDb n) images rfl]
    refine chain'_snoc _ _ _ hchain2 ?_
    rw [List.getLastD_cons, runSweep_getLast]
    exact hlinkf
  · rw [batchFinal_eq]
    exact finalizeJob_terminal images.length _ _ t
  · intro k
    refine ⟨?_, ?_⟩
    · simp only [crashedBatchCommits]
      exact crashed_chain_of_chain t (freshDb n)
        (process_batch_images t jid (freshDb n) images).dropLast k hl
    · simp only [crashedBatchCommits]
      rw [finalDb_concat]
      rfl

/-- C10: in a batch run on a freshly created job, every commit before the
final one carries no Prediction rows and leaves the job's status
(PROCESSING), `started_at`, `completed_at` and `total_images` untouched —
only counter fields and the hit rate change between intermediate commits;
any snapshot whose status is non-terminal shows zero Predictions; and the
final commit is terminal and makes all rows (one per image) visible at
once. -/
theorem intermediate_commits_change_only_counters (t : Nat) (jid : String)
    (n : Nat) (images : List ImageSpec) :
    (∀ st ∈ (process_batch_images t jid (freshDb n) images).dropLast,
        st.predictions = [] ∧ st.job.status = .processing ∧
        st.job.started_at = some t ∧ st.job.completed_at = none ∧
        st.job.total_images = n) ∧
    (∀ st ∈ freshDb n :: process_batch_images t jid (freshDb n) images,
        st.job.status.isTerminal = false → st.predictions = []) ∧
    (batchFinal t jid (freshDb n) images).job.status.isTerminal = true ∧
    (batchFinal t jid (freshDb n) images).predictions.length = images.length := by
  have hterm := finalizeJob_terminal images.length
    (runSweep jid (freshDb n).predictions images (startJob t (freshDb n).job) .init).2.2
    (runSweep jid (freshDb n).predictions images (startJob t (freshDb n).job) .init).2.1 t
  refine ⟨?_, ?_, ?_, ?_⟩
  · intro st hst
    rw [process_batch_images_pending t jid (freshDb n) images rfl,
      dropLast_cons_append_singleton] at hst
    rcases List.mem_cons.mp hst with rfl | hmem
    · exact ⟨rfl, rfl, rfl, rfl, rfl⟩
    · have hframe := (runSweep_frame jid (freshDb n).predictions images
        (startJob t (freshDb n).job) .init).2 st hmem
      have hpred := (runSweep_commits jid (freshDb n).predictions images
        (startJob t (freshDb n).job) .init).2 st hmem
      exact ⟨hpred, hframe.1, hframe.2.2.1, hframe.2.2.2, hframe.2.1⟩
  · intro st hst hnt
    rcases List.mem_cons.mp hst with rfl | hst2
    · rfl
    · rw [process_batch_images_pending t jid (freshDb n) images rfl] at hst2
      rcases List.mem_cons.mp hst2 with rfl | hst3
      · rfl
      · rcases List.mem_append.mp hst3 with hmem | hfin
        · exact (runSweep_commits jid (freshDb n).predictions images
            (startJob t (freshDb n).job) .init).2 st hmem
        · rw [List.mem_singleton.mp hfin] at hnt
          exact absurd (hterm.symm.trans hnt) (by simp)
  · rw [batchFinal_eq]
    exact hterm
  · exact (batchFinal_spec t jid n images).2.2.2.2.2.2

/-- Witness for C10 on a one-image batch: the Pending→Processing commit is
an intermediate commit with no Prediction rows and PROCESSING status, and
the pre-run snapshot (PENDING, hence non-terminal) shows zero Predictions. -/
theorem intermediate_commits_change_only_counters_witness :
    ((⟨startJob 0 (freshDb 1).job, (freshDb 1).predictions⟩ : DbState).predictions
        = [] ∧
      (⟨startJob 0 (freshDb 1).job, (freshDb 1).predictions⟩ : DbState).job.status
        = .processing ∧
      (⟨startJob 0 (freshDb 1).job, (freshDb 1).predictions⟩ : DbState).job.started_at
        = some 0 ∧
      (⟨startJob 0 (freshDb 1).job, (freshDb 1).predictions⟩ : DbState).job.completed_at
        = none ∧
      (⟨startJob 0 (freshDb 1).job, (freshDb 1).predictions⟩ : DbState).job.total_images
        = 1) ∧
    (freshDb 1).predictions = [] := by
  constructor
  · refine (intermediate_commits_change_only_counters 0 "job-w" 1
      [⟨"img.png", ImageFate.failure⟩]).1 _ ?_
    rw [process_batch_images_pending 0 "job-w" (freshDb 1)
        [⟨"img.png", ImageFate.failure⟩] rfl,
      dropLast_cons_append_singleton]
    exact List.mem_cons_self _ _
  · exact (intermediate_commits_change_only_counters 0 "job-w" 1
      [⟨"img.png", ImageFate.failure⟩]).2.1 (freshDb 1)
      (List.mem_cons_self _ _) rfl

end Pulmoscan
